import Mathlib

/-!
Shallow embedding of `src/dashboard.py`, a Streamlit dashboard that fetches
NFL odds from a feed, normalizes bookmaker records, renders a per-game price
comparison grid (tab 1) and scans for positive-expected-value bets against a
sharp reference book's no-vig line (tab 2).

Conventions of the embedding:
* Python floats are modelled as exact rationals (`ℚ`).
* A Python expression that can raise an uncaught exception is modelled in
  `Option` / `Except`: `none` / `.error` marks the raised exception
  (`ZeroDivisionError` for `calculate_ev`, `ValueError` for timestamp
  parsing), `some` / `.ok` the normal return value.
* Python's truthiness test `if x:` on an optional number is modelled by a
  match on `Option` together with a comparison against `0`.
* The HTTP fetch, Streamlit caching and all rendering are out of scope; the
  embedding starts from the decoded feed payload (a list of raw game
  records) exactly as lines 67-76 of `src/dashboard.py` consume it.
-/

namespace Dashboard

/-- Division as Python performs it: `ZeroDivisionError` (here `none`) when
the divisor is zero, otherwise the exact quotient. -/
def qdiv (a b : ℚ) : Option ℚ := if b = 0 then none else some (a / b)

/-- One outcome record of the feed: `{name, point?, price}`.  `point` is
present for spreads/totals and absent for moneyline. -/
structure Outcome where
  name : String
  point : Option ℚ
  price : ℚ
deriving DecidableEq

/-- One market record of the feed: `{key, outcomes}`. -/
structure Market where
  key : String
  outcomes : List Outcome
deriving DecidableEq

/-- One bookmaker record of the feed: `{title, markets}`. -/
structure Bookmaker where
  title : String
  markets : List Market
deriving DecidableEq

/-- One raw game record of the feed (the fields `src/dashboard.py` reads). -/
structure RawGame where
  home_team : String
  away_team : String
  commence_time : String
  bookmakers : List Bookmaker
deriving DecidableEq

/-- A normalized game: the raw record after `get_market_data` has attached a
parsed `commence_time_dt` and replaced `bookmakers` by the whitelisted,
canonically renamed ones (src/dashboard.py lines 69-73). -/
structure Game where
  home_team : String
  away_team : String
  commence_time_dt : Nat
  bookmakers : List Bookmaker
deriving DecidableEq

/-- Python `str.lower()`, character-wise (every name this program lowercases
is ASCII, where `Char.toLower` agrees with Python). -/
def strLower (s : String) : String := ⟨s.data.map Char.toLower⟩

/-- `ALLOWED_BOOKS_RAW` (src/dashboard.py lines 13-16).  Python holds these
in a `set`; the embedding uses a list, and no operation below depends on
order or multiplicity of this collection. -/
def ALLOWED_BOOKS_RAW : List String :=
  ["FanDuel", "DraftKings", "Underdog Fantasy", "Fliff", "Caesars", "BetMGM",
   "ESPN BET", "Fanatics Sportsbook", "Pinnacle"]

/-- `LOWER_TO_PROPER_CASE_MAP = {book.lower(): book for book in ALLOWED_BOOKS_RAW}`
(src/dashboard.py line 17), as an association list. -/
def LOWER_TO_PROPER_CASE_MAP : List (String × String) :=
  ALLOWED_BOOKS_RAW.map (fun book => (strLower book, book))

/-- `ALLOWED_BOOKS_LOWER = set(LOWER_TO_PROPER_CASE_MAP.keys())`
(src/dashboard.py line 18). -/
def ALLOWED_BOOKS_LOWER : List String := LOWER_TO_PROPER_CASE_MAP.map Prod.fst

/-- `SHARP_BOOK_PRIORITY` (src/dashboard.py line 19). -/
def SHARP_BOOK_PRIORITY : List String := ["Pinnacle", "Circa Sports", "BookMaker"]

/-- The canonicalization the normalizer applies to a raw bookmaker title:
lowercase it and look it up in `LOWER_TO_PROPER_CASE_MAP`
(src/dashboard.py lines 70-71); `none` when the title is not whitelisted. -/
def canonicalize (rawTitle : String) : Option String :=
  LOWER_TO_PROPER_CASE_MAP.lookup (strLower rawTitle)

/-- Lines 70-71 of `src/dashboard.py`: keep only bookmakers whose lowercased
title is whitelisted, then rewrite each kept title to its proper-cased form.
The filter guarantees the lookup succeeds, so the `getD` default is never
used. -/
def normalizeBookmakers (bs : List Bookmaker) : List Bookmaker :=
  (bs.filter (fun b => ALLOWED_BOOKS_LOWER.contains (strLower b.title))).map
    (fun b => { b with title := (canonicalize b.title).getD b.title })

/-- Two ASCII digit characters read as a two-digit number; `none` when either
character is not a digit. -/
def digit2 (a b : Char) : Option Nat :=
  if a.isDigit ∧ b.isDigit then some ((a.toNat - 48) * 10 + (b.toNat - 48)) else none

/-- Models `datetime.fromisoformat` restricted to the shape the feed
delivers (after the `Z` replacement): `YYYY-MM-DDTHH:MM:SS+00:00`.  The
result is an integer encoding of the UTC instant that is strictly monotone
in (year, month, day, hour, minute, second), which is all the program uses
(`commence_time_dt` only gets compared and sorted).  `none` models the
`ValueError` Python raises on a malformed timestamp. -/
def parseIsoUtc (s : String) : Option Nat :=
  match s.data with
  | [y1, y2, y3, y4, '-', m1, m2, '-', d1, d2, 'T',
     h1, h2, ':', n1, n2, ':', s1, s2, '+', '0', '0', ':', '0', '0'] => do
    let yhi ← digit2 y1 y2
    let ylo ← digit2 y3 y4
    let mo ← digit2 m1 m2
    let da ← digit2 d1 d2
    let ho ← digit2 h1 h2
    let mi ← digit2 n1 n2
    let se ← digit2 s1 s2
    if 1 ≤ mo ∧ mo ≤ 12 ∧ 1 ≤ da ∧ da ≤ 31 ∧ ho < 24 ∧ mi < 60 ∧ se < 60 then
      some ((((((yhi * 100 + ylo) * 13 + mo) * 32 + da) * 24 + ho) * 60 + mi) * 60 + se)
    else none
  | _ => none

/-- Python `s.replace('Z', '+00:00')`: the pattern is a single character, so
the replacement is character-wise. -/
def replaceZ (s : String) : String :=
  ⟨(s.data.map (fun c => if c = 'Z' then "+00:00".data else [c])).flatten⟩

/-- Line 69 of `src/dashboard.py`:
`datetime.fromisoformat(game['commence_time'].replace('Z', '+00:00'))`.
`none` models the uncaught `ValueError`. -/
def parseCommenceTime (s : String) : Option Nat := parseIsoUtc (replaceZ s)

/-- Ordered insert used to model Python's stable `list.sort(key=...)`:
the new element goes after every element whose key is `≤` its own. -/
def insertByTime (g : Game) : List Game → List Game
  | [] => [g]
  | h :: t =>
    if g.commence_time_dt < h.commence_time_dt then g :: h :: t
    else h :: insertByTime g t

/-- `standardized_data.sort(key=lambda x: x['commence_time_dt'])`
(src/dashboard.py line 75), as a stable insertion sort. -/
def sortByTime (l : List Game) : List Game :=
  l.foldl (fun acc g => insertByTime g acc) []

/-- The per-game loop of `get_market_data` (src/dashboard.py lines 68-74):
parse the timestamp (an uncaught `ValueError` — `.error` — aborts the whole
batch), filter and rename bookmakers, and drop games with no surviving
bookmaker. -/
def normalizeGames : List RawGame → Except String (List Game)
  | [] => .ok []
  | g :: gs =>
    match parseCommenceTime g.commence_time with
    | none => .error g.commence_time
    | some t =>
      let standardized_bookmakers := normalizeBookmakers g.bookmakers
      match normalizeGames gs with
      | .error e => .error e
      | .ok rest =>
        .ok (if standardized_bookmakers.isEmpty then rest
             else ⟨g.home_team, g.away_team, t, standardized_bookmakers⟩ :: rest)

/-- `get_market_data` (src/dashboard.py lines 61-76) from the decoded feed
payload on: normalize every game, then sort by `commence_time_dt`.  The API
key check, HTTP fetch and caching that precede this are out of scope. -/
def get_market_data (raw : List RawGame) : Except String (List Game) :=
  match normalizeGames raw with
  | .error e => .error e
  | .ok gs => .ok (sortByTime gs)

/-- `calculate_no_vig_prob` (src/dashboard.py lines 47-52).  Raw implied
probability per side (`100/(p+100)` for `p > 0`, else `|p|/(|p|+100)`),
then each divided by their sum, with the guard returning `(0, 0)` when the
sum is zero.  Every Python division is routed through `qdiv`. -/
def calculate_no_vig_prob (odds1 odds2 : ℚ) : Option (ℚ × ℚ) :=
  (if odds1 > 0 then qdiv 100 (odds1 + 100) else qdiv |odds1| (|odds1| + 100)).bind
    fun prob1 =>
  (if odds2 > 0 then qdiv 100 (odds2 + 100) else qdiv |odds2| (|odds2| + 100)).bind
    fun prob2 =>
  let total_prob := prob1 + prob2
  if total_prob = 0 then some (0, 0)
  else
    (qdiv prob1 total_prob).bind fun r1 =>
    (qdiv prob2 total_prob).bind fun r2 =>
    some (r1, r2)

/-- `calculate_ev` (src/dashboard.py lines 54-59).  For a negative price the
winnings are `100 / (|price| / 100)`; at price `0` that division raises
`ZeroDivisionError`, modelled by `none`. -/
def calculate_ev (true_prob american_odds : ℚ) : Option ℚ :=
  (if american_odds > 0 then some american_odds
   else qdiv 100 (|american_odds| / 100)).bind fun potential_winnings =>
  let win_amount := potential_winnings * true_prob
  let loss_amount := 100 * (1 - true_prob)
  some ((win_amount - loss_amount) / 100)

/-- Python `needle in haystack` on lists of characters: `true` iff `needle`
occurs contiguously inside `haystack`. -/
def listContainsSeq : List Char → List Char → Bool
  | [], needle => needle.isEmpty
  | c :: t, needle => needle.isPrefixOf (c :: t) || listContainsSeq t needle

/-- Python's substring test `needle in haystack` on strings. -/
def pyIn (needle haystack : String) : Bool := listContainsSeq haystack.data needle.data

/-- `b['markets'][0]['outcomes']` (src/dashboard.py lines 96, 136, 148).  In
feed data every bookmaker record carries at least one market, so the
default for an empty list is never exercised. -/
def firstOutcomes (b : Bookmaker) : List Outcome :=
  (b.markets.headD ⟨"", []⟩).outcomes

/-- `next((o['price'] for o in outcomes if team in o['name']), None)`
(src/dashboard.py lines 137-138, 149-150): the price of the first outcome
whose label contains `team` as a (case-sensitive) substring. -/
def matchPrice (team : String) (outcomes : List Outcome) : Option ℚ :=
  (outcomes.find? (fun o => pyIn team o.name)).map (fun o => o.price)

/-- The reference-book selection loop (src/dashboard.py lines 127-132):
first priority-list name borne by some bookmaker of the game, paired with
the first such bookmaker record. -/
def selectReference (bookmakers : List Bookmaker) : Option (String × Bookmaker) :=
  SHARP_BOOK_PRIORITY.findSome?
    (fun book_name =>
      (bookmakers.find? (fun b => b.title == book_name)).map (fun b => (book_name, b)))

/-- One row of the +EV table: outcome label (team), offering bookmaker,
offered price and computed EV fraction
(`display_data[team][book['title']]`, src/dashboard.py lines 155-162). -/
structure EVEntry where
  team : String
  book : String
  price : ℚ
  ev : ℚ
deriving DecidableEq

/-- One side of the per-book EV check (src/dashboard.py lines 149-162):
skip when the matched price is `None` or `0` (Python falsiness), otherwise
compute the EV and emit an entry exactly when it is positive.  `none`
would mark an uncaught exception from `calculate_ev`. -/
def scanSide (trueProb : ℚ) (team : String) (b : Bookmaker) : Option (List EVEntry) :=
  match matchPrice team (firstOutcomes b) with
  | none => some []
  | some price =>
    if price = 0 then some []
    else
      match calculate_ev trueProb price with
      | none => none
      | some ev => some (if 0 < ev then [⟨team, b.title, price, ev⟩] else [])

/-- The inner book loop of tab 2 (src/dashboard.py lines 145-162): skip
books on the sharp priority list, otherwise check the away side then the
home side of each book, in feed order. -/
def scanBooks (true_away_prob true_home_prob : ℚ) (away_team home_team : String) :
    List Bookmaker → Option (List EVEntry)
  | [] => some []
  | b :: bs =>
    if SHARP_BOOK_PRIORITY.contains b.title then
      scanBooks true_away_prob true_home_prob away_team home_team bs
    else
      match scanSide true_away_prob away_team b, scanSide true_home_prob home_team b,
            scanBooks true_away_prob true_home_prob away_team home_team bs with
      | some la, some lh, some rest => some (la ++ lh ++ rest)
      | _, _, _ => none

/-- The per-game body of tab 2 (src/dashboard.py lines 123-162): select the
reference book (`continue` — an empty result — when absent), match its two
sides (`continue` when either is `None`), de-vig, then scan the remaining
books. -/
def scanGame (g : Game) : Option (List EVEntry) :=
  match selectReference g.bookmakers with
  | none => some []
  | some (_, sharp_odds_raw) =>
    match matchPrice g.away_team (firstOutcomes sharp_odds_raw),
          matchPrice g.home_team (firstOutcomes sharp_odds_raw) with
    | some sharp_away_odds, some sharp_home_odds =>
      match calculate_no_vig_prob sharp_away_odds sharp_home_odds with
      | none => none
      | some (true_away_prob, true_home_prob) =>
        scanBooks true_away_prob true_home_prob g.away_team g.home_team g.bookmakers
    | _, _ => some []

/-- The outer game loop of tab 2 (src/dashboard.py lines 123-168): the EV
entries of every game, concatenated in feed order. -/
def evFinder : List Game → Option (List EVEntry)
  | [] => some []
  | g :: gs =>
    match scanGame g, evFinder gs with
    | some l, some rest => some (l ++ rest)
    | _, _ => none

/-- `f"{g['away_team']} @ {g['home_team']}"` (src/dashboard.py line 93). -/
def gameName (g : Game) : String := g.away_team ++ " @ " ++ g.home_team

/-- One record of tab 1's long-format table: game id, row key (team name or
outcome label), bookmaker, and cell value. -/
structure LongRow (α : Type) where
  game_id : String
  rowKey : String
  bookmaker : String
  value : α
deriving DecidableEq

/-- Whether a long-format row belongs to the pivot cell
`(game_id, rowKey, bookmaker)`. -/
def rowMatches {α : Type} (r : LongRow α) (game_id rowKey bookmaker : String) : Bool :=
  r.game_id == game_id && r.rowKey == rowKey && r.bookmaker == bookmaker

/-- The moneyline long-format list (src/dashboard.py line 96): one row per
game, bookmaker and outcome of `markets[0]`, holding the bare price. -/
def long_format_h2h (data : List Game) : List (LongRow ℚ) :=
  data.flatMap (fun g => g.bookmakers.flatMap (fun b =>
    (firstOutcomes b).map (fun o => ⟨gameName g, o.name, b.title, o.price⟩)))

/-- The spreads/totals long-format list (src/dashboard.py line 104): one row
per game, bookmaker, market and outcome, holding the `(point, price)` pair. -/
def long_format_points (data : List Game) : List (LongRow (Option ℚ × ℚ)) :=
  data.flatMap (fun g => g.bookmakers.flatMap (fun b =>
    b.markets.flatMap (fun m =>
      m.outcomes.map (fun o => ⟨gameName g, o.name, b.title, (o.point, o.price)⟩))))

/-- `pivot_table(..., aggfunc='first')` (src/dashboard.py lines 101, 110):
the cell for `(game_id, rowKey, bookmaker)` holds the value of the first
matching row, `none` when no row matches. -/
def pivotFirst {α : Type} (rows : List (LongRow α)) (game_id rowKey bookmaker : String) :
    Option α :=
  (rows.find? (fun r => rowMatches r game_id rowKey bookmaker)).map (fun r => r.value)

/-- Raw implied probability as §4.3 of the spec states the piecewise
formula: `100/(p+100)` for `p > 0`, `|p|/(|p|+100)` for `p < 0`. -/
def impliedProbSpec (p : ℚ) : ℚ :=
  if p > 0 then 100 / (p + 100) else |p| / (|p| + 100)

/-- Potential winnings per $100 stake as §4.4 of the spec states them:
`price` for positive prices, `10000/|price|` for negative ones. -/
def winningsSpec (price : ℚ) : ℚ := if price > 0 then price else 10000 / |price|

/-- Expected value as §4.4 of the spec states it:
`(trueProb * winnings - (1 - trueProb) * 100) / 100`. -/
def evSpec (p price : ℚ) : ℚ := (p * winningsSpec price - (1 - p) * 100) / 100

/-- The outcome-side matcher as the spec's §4.2 (claim C6) describes it: a
case-insensitive substring/equality match of the team name against the
outcome label. -/
def matchPriceCaseInsensitive (team : String) (outcomes : List Outcome) : Option ℚ :=
  (outcomes.find? (fun o => pyIn (strLower team) (strLower o.name))).map (fun o => o.price)

/-- Concrete feed fixture: a well-formed game record. -/
def exGoodRaw : RawGame :=
  ⟨"Buffalo Bills", "New York Jets", "2025-01-05T18:00:00Z",
   [⟨"FanDuel", [⟨"h2h", [⟨"New York Jets", none, 120⟩, ⟨"Buffalo Bills", none, -140⟩]⟩]⟩]⟩

/-- Concrete feed fixture: a game record with a malformed timestamp. -/
def exBadRaw : RawGame :=
  ⟨"Dallas Cowboys", "Philadelphia Eagles", "not-a-date",
   [⟨"FanDuel", [⟨"h2h", []⟩]⟩]⟩

/-- `exGoodRaw` after normalization (`72786621600` encodes
2025-01-05T18:00:00 UTC in `parseIsoUtc`'s monotone integer encoding). -/
def exGoodGame : Game :=
  ⟨"Buffalo Bills", "New York Jets", 72786621600,
   [⟨"FanDuel", [⟨"h2h", [⟨"New York Jets", none, 120⟩, ⟨"Buffalo Bills", none, -140⟩]⟩]⟩]⟩

/-- Concrete fixture: one bookmaker quoting the same team twice in one
market, the better price second. -/
def exDupGame : Game :=
  ⟨"Buffalo Bills", "New York Jets", 0,
   [⟨"FanDuel", [⟨"h2h", [⟨"New York Jets", none, 120⟩, ⟨"New York Jets", none, 130⟩,
                          ⟨"Buffalo Bills", none, -140⟩]⟩]⟩]⟩

/-- Concrete fixture: a sharp (reference) bookmaker record. -/
def exPinnacleBook : Bookmaker :=
  ⟨"Pinnacle", [⟨"h2h", [⟨"New York Jets", none, -110⟩, ⟨"Buffalo Bills", none, -110⟩]⟩]⟩

/-- Concrete fixture: a non-reference bookmaker quoting only the away side. -/
def exFanDuelBook : Bookmaker :=
  ⟨"FanDuel", [⟨"h2h", [⟨"New York Jets", none, 120⟩]⟩]⟩

/-- Concrete fixture: a game covered by the reference book and one
non-reference book. -/
def exEvGame : Game :=
  ⟨"Buffalo Bills", "New York Jets", 0, [exPinnacleBook, exFanDuelBook]⟩

/-- Concrete fixture: a game with no sharp-priority bookmaker. -/
def exNoRefGame : Game :=
  ⟨"Buffalo Bills", "New York Jets", 0, [exFanDuelBook]⟩

/-- Concrete fixture: a bookmaker quoting a (malformed) zero price. -/
def exZeroPriceBook : Bookmaker :=
  ⟨"FanDuel", [⟨"h2h", [⟨"New York Jets", none, 0⟩]⟩]⟩

end Dashboard

namespace Dashboard

/-! ### Basic facts about the arithmetic helpers -/

theorem qdiv_of_ne (a b : ℚ) (hb : b ≠ 0) : qdiv a b = some (a / b) := by
  simp [qdiv, hb]

theorem implied_step (p : ℚ) :
    (if p > 0 then qdiv 100 (p + 100) else qdiv |p| (|p| + 100)) =
      some (impliedProbSpec p) := by
  by_cases h : p > 0
  · have h0 : (0 : ℚ) < p + 100 := by linarith
    rw [if_pos h, qdiv_of_ne _ _ h0.ne', impliedProbSpec, if_pos h]
  · have h0 : (0 : ℚ) < |p| + 100 := by positivity
    rw [if_neg h, qdiv_of_ne _ _ h0.ne', impliedProbSpec, if_neg h]

theorem impliedProbSpec_pos (p : ℚ) (hp : p ≠ 0) : 0 < impliedProbSpec p := by
  unfold impliedProbSpec
  by_cases h : p > 0
  · rw [if_pos h]
    apply div_pos <;> linarith
  · rw [if_neg h]
    have habs : 0 < |p| := abs_pos.mpr hp
    have h0 : (0 : ℚ) < |p| + 100 := by linarith
    exact div_pos habs h0

theorem no_vig_eq_of_ne (p1 p2 : ℚ) (h1 : p1 ≠ 0) (h2 : p2 ≠ 0) :
    calculate_no_vig_prob p1 p2 =
      some (impliedProbSpec p1 / (impliedProbSpec p1 + impliedProbSpec p2),
            impliedProbSpec p2 / (impliedProbSpec p1 + impliedProbSpec p2)) := by
  have hi1 := impliedProbSpec_pos p1 h1
  have hi2 := impliedProbSpec_pos p2 h2
  have hS : (0 : ℚ) < impliedProbSpec p1 + impliedProbSpec p2 := by linarith
  rw [calculate_no_vig_prob, implied_step, Option.some_bind, implied_step,
    Option.some_bind]
  simp only []
  rw [if_neg hS.ne', qdiv_of_ne _ _ hS.ne', Option.some_bind,
    qdiv_of_ne _ _ hS.ne', Option.some_bind]

/-- `calculate_ev` agrees with the spec's closed formula whenever the price
is nonzero. -/
theorem calculate_ev_eq_of_ne (p price : ℚ) (hp : price ≠ 0) :
    calculate_ev p price = some (evSpec p price) := by
  by_cases h : price > 0
  · rw [calculate_ev, if_pos h, Option.some_bind]
    simp only [Option.some.injEq]
    rw [evSpec, winningsSpec, if_pos h]
    ring
  · have h2 : (0 : ℚ) < |price| := abs_pos.mpr hp
    have habs : |price| / 100 ≠ 0 := by positivity
    rw [calculate_ev, if_neg h, qdiv_of_ne _ _ habs, Option.some_bind]
    simp only [Option.some.injEq]
    rw [evSpec, winningsSpec, if_neg h]
    rw [div_div_eq_mul_div, div_mul_eq_mul_div]
    ring_nf

/-- `calculate_ev` at price 0 is the `ZeroDivisionError` of
`100 / (abs(0) / 100)`. -/
theorem calculate_ev_zero (p : ℚ) : calculate_ev p 0 = none := by
  rw [calculate_ev]
  norm_num [qdiv]

theorem impliedProbSpec_neg110 : impliedProbSpec (-110) = 11 / 21 := by
  rw [impliedProbSpec, if_neg (by norm_num),
    abs_of_neg (show (-110 : ℚ) < 0 by norm_num)]
  norm_num

theorem no_vig_110 : calculate_no_vig_prob (-110) (-110) = some (1 / 2, 1 / 2) := by
  have h : ((-110 : ℚ)) ≠ 0 := by norm_num
  rw [no_vig_eq_of_ne _ _ h h, impliedProbSpec_neg110]
  norm_num

theorem ev_half_100 : calculate_ev (1 / 2) 100 = some 0 := by
  rw [calculate_ev_eq_of_ne _ _ (show (100 : ℚ) ≠ 0 by norm_num)]
  norm_num [evSpec, winningsSpec]

theorem ev_half_neg110 : calculate_ev (1 / 2) (-110) = some (-1 / 22) := by
  rw [calculate_ev_eq_of_ne _ _ (show ((-110 : ℚ)) ≠ 0 by norm_num)]
  norm_num [evSpec, winningsSpec, abs_of_neg (show (-110 : ℚ) < 0 by norm_num)]

theorem ev_neg110_near : |(-1 / 22 : ℚ) - (-455 / 10000)| < 1 / 10000 := by
  have h : (-1 / 22 : ℚ) - (-455 / 10000) = 1 / 22000 := by norm_num
  rw [h, abs_of_pos (by norm_num)]
  norm_num

theorem no_vig_zero_left (o : ℚ) (ho : o ≠ 0) :
    calculate_no_vig_prob 0 o = some (0, 1) := by
  have hi := impliedProbSpec_pos o ho
  have h00 : impliedProbSpec 0 = 0 := by norm_num [impliedProbSpec]
  rw [calculate_no_vig_prob, implied_step, Option.some_bind, implied_step,
    Option.some_bind, h00]
  simp only [zero_add]
  rw [if_neg hi.ne', qdiv_of_ne _ _ hi.ne', Option.some_bind,
    qdiv_of_ne _ _ hi.ne', Option.some_bind, zero_div, div_self hi.ne']

theorem no_vig_zero_right (o : ℚ) (ho : o ≠ 0) :
    calculate_no_vig_prob o 0 = some (1, 0) := by
  have hi := impliedProbSpec_pos o ho
  have h00 : impliedProbSpec 0 = 0 := by norm_num [impliedProbSpec]
  rw [calculate_no_vig_prob, implied_step, Option.some_bind, implied_step,
    Option.some_bind, h00]
  simp only [add_zero]
  rw [if_neg hi.ne', qdiv_of_ne _ _ hi.ne', Option.some_bind,
    qdiv_of_ne _ _ hi.ne', Option.some_bind, zero_div, div_self hi.ne']

theorem no_vig_zero_zero : calculate_no_vig_prob 0 0 = some (0, 0) := by
  have h00 : impliedProbSpec 0 = 0 := by norm_num [impliedProbSpec]
  rw [calculate_no_vig_prob, implied_step, Option.some_bind, Option.some_bind, h00]
  norm_num

/-! ### C1 -/

/-- C1: for any pair of nonzero American prices, `calculate_no_vig_prob`
returns (without error) each side's raw implied probability — `100/(p+100)`
for `p > 0`, `|p|/(|p|+100)` for `p < 0` — divided by their sum, the two
results sum to exactly 1 (hence to 1.0 within 1e-9), and on the symmetric
input (-110, -110) it returns exactly (1/2, 1/2). -/
theorem no_vig_normalizes (p1 p2 : ℚ) (h1 : p1 ≠ 0) (h2 : p2 ≠ 0) :
    (∃ q1 q2, calculate_no_vig_prob p1 p2 = some (q1, q2) ∧
        q1 = impliedProbSpec p1 / (impliedProbSpec p1 + impliedProbSpec p2) ∧
        q2 = impliedProbSpec p2 / (impliedProbSpec p1 + impliedProbSpec p2) ∧
        q1 + q2 = 1) ∧
      calculate_no_vig_prob (-110) (-110) = some (1 / 2, 1 / 2) := by
  constructor
  · have hi1 := impliedProbSpec_pos p1 h1
    have hi2 := impliedProbSpec_pos p2 h2
    have hS : (0 : ℚ) < impliedProbSpec p1 + impliedProbSpec p2 := by linarith
    refine ⟨_, _, no_vig_eq_of_ne p1 p2 h1 h2, rfl, rfl, ?_⟩
    rw [div_add_div_same, div_self hS.ne']
  · exact no_vig_110

/-- Witness for C1 at the concrete pair (-110, -120). -/
theorem no_vig_normalizes_witness :
    (∃ q1 q2, calculate_no_vig_prob (-110) (-120) = some (q1, q2) ∧
        q1 = impliedProbSpec (-110) / (impliedProbSpec (-110) + impliedProbSpec (-120)) ∧
        q2 = impliedProbSpec (-120) / (impliedProbSpec (-110) + impliedProbSpec (-120)) ∧
        q1 + q2 = 1) ∧
      calculate_no_vig_prob (-110) (-110) = some (1 / 2, 1 / 2) :=
  no_vig_normalizes (-110) (-120) (by norm_num) (by norm_num)

/-! ### C2 -/

/-- C2: for every true probability and nonzero price, `calculate_ev` returns
(without error) the spec's closed formula
`(p * winnings - (1 - p) * 100) / 100` with `winnings = price` for positive
prices and `winnings = 10000/|price|` for negative ones; moreover
`EV(1/2, +100) = 0`, and `EV(1/2, -110) = -1/22 ≈ -0.0455` (within 1e-4). -/
theorem calculate_ev_matches_spec (p price : ℚ) (hp : price ≠ 0) :
    calculate_ev p price = some (evSpec p price) ∧
      calculate_ev (1 / 2) 100 = some 0 ∧
      calculate_ev (1 / 2) (-110) = some (-1 / 22) ∧
      |(-1 / 22 : ℚ) - (-455 / 10000)| < 1 / 10000 :=
  ⟨calculate_ev_eq_of_ne p price hp, ev_half_100, ev_half_neg110, ev_neg110_near⟩

/-- Witness for C2 at the concrete input (trueProb 55/100, price +100). -/
theorem calculate_ev_matches_spec_witness :
    calculate_ev (55 / 100) 100 = some (evSpec (55 / 100) 100) ∧
      calculate_ev (1 / 2) 100 = some 0 ∧
      calculate_ev (1 / 2) (-110) = some (-1 / 22) ∧
      |(-1 / 22 : ℚ) - (-455 / 10000)| < 1 / 10000 :=
  calculate_ev_matches_spec (55 / 100) 100 (by norm_num)

/-! ### C5 -/

/-- C5 counterexample: a price of exactly 0 is NOT rejected by
`calculate_no_vig_prob` — with a zero argument it silently returns a
numeric pair (`some`, i.e. no exception), contradicting the claim that both
functions signal an error on price 0. -/
theorem no_vig_accepts_zero_price :
    calculate_no_vig_prob 0 (-110) = some (0, 1) ∧
      calculate_no_vig_prob (-110) 0 = some (1, 0) ∧
      calculate_no_vig_prob 0 0 = some (0, 0) :=
  ⟨no_vig_zero_left (-110) (by norm_num), no_vig_zero_right (-110) (by norm_num),
   no_vig_zero_zero⟩

/-- C5 (amended): `calculate_ev` does reject price 0 (its
`100 / (|0| / 100)` raises `ZeroDivisionError`), but `calculate_no_vig_prob`
accepts 0 silently: with one argument 0 and the other nonzero it returns
the degenerate pair (0, 1) resp. (1, 0), and with both 0 the guard returns
(0, 0). -/
theorem zero_price_rejected_only_by_ev (p o : ℚ) (ho : o ≠ 0) :
    calculate_ev p 0 = none ∧
      calculate_no_vig_prob 0 o = some (0, 1) ∧
      calculate_no_vig_prob o 0 = some (1, 0) :=
  ⟨calculate_ev_zero p, no_vig_zero_left o ho, no_vig_zero_right o ho⟩

/-- Witness for the amended C5 at the concrete nonzero price 50. -/
theorem zero_price_rejected_only_by_ev_witness :
    calculate_ev (1 / 3) 0 = none ∧
      calculate_no_vig_prob 0 50 = some (0, 1) ∧
      calculate_no_vig_prob 50 0 = some (1, 0) :=
  zero_price_rejected_only_by_ev (1 / 3) 50 (by norm_num)

/-! ### C7 -/

/-- For a string-keyed association list, key membership coincides with
lookup success. -/
theorem keys_contains_eq_lookup_isSome (l : List (String × String)) (k : String) :
    (l.map Prod.fst).contains k = (l.lookup k).isSome := by
  induction l with
  | nil => rfl
  | cons x t ih =>
    obtain ⟨a, b⟩ := x
    rw [List.map_cons, List.contains_cons, List.lookup_cons]
    cases h : k == a
    · simpa [h] using ih
    · simp [h]

/-- The normalizer's whitelist test succeeds exactly when canonicalization
does. -/
theorem contains_lower_eq_isSome (t : String) :
    ALLOWED_BOOKS_LOWER.contains (strLower t) = (canonicalize t).isSome := by
  rw [ALLOWED_BOOKS_LOWER, canonicalize]
  exact keys_contains_eq_lookup_isSome LOWER_TO_PROPER_CASE_MAP (strLower t)

/-- C7: `canonicalize` maps every casing variant of an approved bookmaker
name to the single approved display name ("PINNACLE" and "pinnacle" both to
"Pinnacle"), returns `none` on an unrecognized title ("Bovada"), never
raises (it is a total function into `Option`), and the normalizer drops a
record with an unrecognized title from the output. -/
theorem canonicalize_casing (raw b : String) (hb : b ∈ ALLOWED_BOOKS_RAW)
    (hlow : strLower raw = strLower b) :
    canonicalize raw = some b ∧
      canonicalize "PINNACLE" = some "Pinnacle" ∧
      canonicalize "pinnacle" = some "Pinnacle" ∧
      canonicalize "Bovada" = none ∧
      ∀ (bad : Bookmaker), canonicalize bad.title = none →
        ∀ l1 l2, normalizeBookmakers (l1 ++ bad :: l2) = normalizeBookmakers (l1 ++ l2) := by
  refine ⟨?_, by decide, by decide, by decide, ?_⟩
  · rw [canonicalize, hlow]
    fin_cases hb <;> decide
  · intro bad hbad l1 l2
    have hp : ALLOWED_BOOKS_LOWER.contains (strLower bad.title) = false := by
      rw [contains_lower_eq_isSome, hbad]
      rfl
    rw [normalizeBookmakers, normalizeBookmakers, List.filter_append,
      List.filter_append, List.filter_cons, hp]
    simp

/-- Witness for C7 at the concrete raw title "FANDUEL". -/
theorem canonicalize_casing_witness : canonicalize "FANDUEL" = some "FanDuel" :=
  (canonicalize_casing "FANDUEL" "FanDuel" (by decide) (by decide)).1

/-! ### C4 -/

/-- C4 counterexample: a payload of one well-formed game followed by one
game with a malformed `commence_time` makes `get_market_data` error out for
the whole batch (the uncaught `ValueError`), instead of returning the
normalized remaining game — which it does return when the malformed record
is absent. -/
theorem malformed_timestamp_aborts_batch :
    get_market_data [exGoodRaw, exBadRaw] = Except.error "not-a-date" ∧
      get_market_data [exGoodRaw] = Except.ok [exGoodGame] :=
  ⟨rfl, rfl⟩

/-- C4 (amended): a malformed `commence_time` anywhere in the payload is an
uncaught `ValueError`: `get_market_data` returns an error for the whole
batch rather than excluding the offending game and normalizing the rest. -/
theorem malformed_timestamp_error (raw : List RawGame) (g : RawGame)
    (hg : g ∈ raw) (hbad : parseCommenceTime g.commence_time = none) :
    ∃ e, get_market_data raw = Except.error e := by
  suffices h : ∃ e, normalizeGames raw = Except.error e by
    obtain ⟨e, he⟩ := h
    exact ⟨e, by rw [get_market_data, he]⟩
  induction raw with
  | nil => cases hg
  | cons a t ih =>
    rcases List.mem_cons.mp hg with h | h
    · subst h
      exact ⟨g.commence_time, by simp [normalizeGames, hbad]⟩
    · cases hp : parseCommenceTime a.commence_time with
      | none => exact ⟨a.commence_time, by simp [normalizeGames, hp]⟩
      | some t' =>
        obtain ⟨e, he⟩ := ih h
        exact ⟨e, by simp [normalizeGames, hp, he]⟩

/-- Witness for the amended C4 at the concrete malformed payload. -/
theorem malformed_timestamp_error_witness :
    ∃ e, get_market_data [exGoodRaw, exBadRaw] = Except.error e :=
  malformed_timestamp_error [exGoodRaw, exBadRaw] exBadRaw (by decide) (by decide)

/-! ### C9 -/

/-- C9: the comparator grid cell takes the first quote in feed order.  In
general, whenever a row matching the cell is preceded only by non-matching
rows, `pivotFirst` returns that row's value no matter what (including
further quotes by the same bookmaker) comes later; and on a concrete feed
where FanDuel quotes the Jets twice (+120 then +130), the pipeline's cell
holds +120 even though the better +130 quote is present. -/
theorem pivot_first_wins {α : Type} (l1 l2 : List (LongRow α)) (r : LongRow α)
    (gid key book : String)
    (h1 : ∀ r' ∈ l1, rowMatches r' gid key book = false)
    (h2 : rowMatches r gid key book = true) :
    pivotFirst (l1 ++ r :: l2) gid key book = some r.value ∧
      pivotFirst (long_format_h2h [exDupGame]) "New York Jets @ Buffalo Bills"
        "New York Jets" "FanDuel" = some 120 ∧
      (∃ r2 ∈ long_format_h2h [exDupGame],
        rowMatches r2 "New York Jets @ Buffalo Bills" "New York Jets" "FanDuel" = true ∧
        r2.value = 130) := by
  refine ⟨?_, by decide, by decide⟩
  rw [pivotFirst, List.find?_append]
  have hnone : l1.find? (fun r' => rowMatches r' gid key book) = none :=
    List.find?_eq_none.mpr (fun x hx => by simp [h1 x hx])
  have hcons : List.find? (fun r' => rowMatches r' gid key book) (r :: l2) = some r :=
    List.find?_cons_of_pos l2 (show (fun r' => rowMatches r' gid key book) r = true from h2)
  rw [hnone, Option.none_or, hcons]
  rfl

/-- Witness for C9 on a concrete three-row list. -/
theorem pivot_first_wins_witness :
    pivotFirst ([(⟨"g", "t", "other", 99⟩ : LongRow ℚ)] ++
        (⟨"g", "t", "b", 120⟩ : LongRow ℚ) :: [⟨"g", "t", "b", 130⟩]) "g" "t" "b" =
      some 120 ∧
      pivotFirst (long_format_h2h [exDupGame]) "New York Jets @ Buffalo Bills"
        "New York Jets" "FanDuel" = some 120 ∧
      (∃ r2 ∈ long_format_h2h [exDupGame],
        rowMatches r2 "New York Jets @ Buffalo Bills" "New York Jets" "FanDuel" = true ∧
        r2.value = 130) :=
  pivot_first_wins [⟨"g", "t", "other", 99⟩] [⟨"g", "t", "b", 130⟩] ⟨"g", "t", "b", 120⟩
    "g" "t" "b" (by decide) (by decide)

/-! ### C6 -/

/-- `listContainsSeq` is exactly contiguous containment. -/
theorem listContainsSeq_iff (h n : List Char) :
    listContainsSeq h n = true ↔ ∃ pre post, h = pre ++ n ++ post := by
  induction h with
  | nil =>
    rw [listContainsSeq, List.isEmpty_iff]
    constructor
    · rintro rfl
      exact ⟨[], [], rfl⟩
    · rintro ⟨pre, post, he⟩
      rcases List.append_eq_nil.mp he.symm with ⟨h1, h2⟩
      exact (List.append_eq_nil.mp h1).2
  | cons c t ih =>
    rw [listContainsSeq, Bool.or_eq_true, ih]
    constructor
    · rintro (hpre | ⟨pre, post, rfl⟩)
      · obtain ⟨tail, htail⟩ := List.isPrefixOf_iff_prefix.mp hpre
        exact ⟨[], tail, by simp [htail]⟩
      · exact ⟨c :: pre, post, by simp⟩
    · rintro ⟨pre, post, heq⟩
      cases pre with
      | nil =>
        left
        rw [ List.isPrefixOf_iff_prefix]
        exact ⟨post, by simpa using heq.symm⟩
      | cons c' pre' =>
        right
        simp only [List.cons_append, List.cons.injEq] at heq
        exact ⟨pre', post, heq.2⟩

/-- Python's `in` on strings is exactly contiguous substring occurrence
(and in particular case-sensitive). -/
theorem pyIn_iff (n h : String) :
    pyIn n h = true ↔ ∃ pre post, h.data = pre ++ n.data ++ post :=
  listContainsSeq_iff h.data n.data

/-- C6 counterexample: outcome-side resolution is not case-insensitive.  On
the outcome label "NEW YORK JETS" the code's matcher (`matchPrice`, Python
`team in o['name']`) finds nothing for team "New York Jets", while the
claim's case-insensitive matcher would return the price. -/
theorem team_match_not_case_insensitive :
    matchPrice "New York Jets" [⟨"NEW YORK JETS", none, -110⟩] = none ∧
      matchPriceCaseInsensitive "New York Jets" [⟨"NEW YORK JETS", none, -110⟩] =
        some (-110) := by
  decide

/-- C6 (amended): each side is resolved independently as the first outcome
whose label contains that side's team name as a case-sensitive substring
(`matchPrice` succeeds exactly on the first such outcome, and `pyIn` is
exactly contiguous substring occurrence); there is no home-priority and no
away-default — an outcome label containing both team names is used for both
sides, as the concrete "New York" example shows. -/
theorem team_match_amended (team : String) (outs : List Outcome) (p : ℚ) :
    (matchPrice team outs = some p ↔
      ∃ l1 o l2, outs = l1 ++ o :: l2 ∧ pyIn team o.name = true ∧ o.price = p ∧
        ∀ o' ∈ l1, pyIn team o'.name = false) ∧
      (∀ needle hay : String, pyIn needle hay = true ↔
        ∃ pre post, hay.data = pre ++ needle.data ++ post) ∧
      matchPrice "York" [⟨"New York", none, 120⟩] = some 120 ∧
      matchPrice "New" [⟨"New York", none, 120⟩] = some 120 := by
  refine ⟨?_, pyIn_iff, by decide, by decide⟩
  rw [matchPrice]
  constructor
  · intro hm
    obtain ⟨o, ho, hp⟩ := Option.map_eq_some'.mp hm
    obtain ⟨hpo, l1, l2, hsplit, hbefore⟩ := List.find?_eq_some.mp ho
    refine ⟨l1, o, l2, hsplit, hpo, hp, fun o' ho' => ?_⟩
    have := hbefore o' ho'
    simpa using this
  · rintro ⟨l1, o, l2, rfl, hpo, rfl, hbefore⟩
    apply Option.map_eq_some'.mpr
    refine ⟨o, ?_, rfl⟩
    apply List.find?_eq_some.mpr
    exact ⟨hpo, l1, l2, rfl, fun a ha => by simp [hbefore a ha]⟩

/-- Witness for the amended C6 on a concrete outcome list. -/
theorem team_match_amended_witness :
    (matchPrice "Jets" [⟨"New York Jets", none, 120⟩] = some 120 ↔
      ∃ l1 o l2, [(⟨"New York Jets", none, 120⟩ : Outcome)] = l1 ++ o :: l2 ∧
        pyIn "Jets" o.name = true ∧ o.price = 120 ∧
        ∀ o' ∈ l1, pyIn "Jets" o'.name = false) ∧
      (∀ needle hay : String, pyIn needle hay = true ↔
        ∃ pre post, hay.data = pre ++ needle.data ++ post) ∧
      matchPrice "York" [⟨"New York", none, 120⟩] = some 120 ∧
      matchPrice "New" [⟨"New York", none, 120⟩] = some 120 :=
  team_match_amended "Jets" [⟨"New York Jets", none, 120⟩] 120

/-! ### The EV scan of tab 2: totality and membership lemmas -/

/-- `calculate_no_vig_prob` never raises: every input yields a pair. -/
theorem no_vig_isSome (o1 o2 : ℚ) : ∃ pr, calculate_no_vig_prob o1 o2 = some pr := by
  by_cases h1 : o1 = 0
  · subst h1
    by_cases h2 : o2 = 0
    · subst h2
      exact ⟨(0, 0), no_vig_zero_zero⟩
    · exact ⟨(0, 1), no_vig_zero_left o2 h2⟩
  · by_cases h2 : o2 = 0
    · subst h2
      exact ⟨(1, 0), no_vig_zero_right o1 h1⟩
    · exact ⟨_, no_vig_eq_of_ne o1 o2 h1 h2⟩

/-- `scanSide` never raises: the `ZeroDivisionError` branch of
`calculate_ev` is unreachable from it. -/
theorem scanSide_isSome (tp : ℚ) (team : String) (b : Bookmaker) :
    ∃ l, scanSide tp team b = some l := by
  rw [scanSide]
  split
  · exact ⟨[], rfl⟩
  · split
    · exact ⟨[], rfl⟩
    · rename_i price heq hz
      rw [calculate_ev_eq_of_ne tp price hz]
      exact ⟨_, rfl⟩

/-- Membership in a successful `scanSide` result, characterized. -/
theorem mem_scanSide (tp : ℚ) (team : String) (b : Bookmaker) (l : List EVEntry)
    (hs : scanSide tp team b = some l) (e : EVEntry) :
    e ∈ l ↔ ∃ price ev, matchPrice team (firstOutcomes b) = some price ∧
      calculate_ev tp price = some ev ∧ 0 < ev ∧ e = ⟨team, b.title, price, ev⟩ := by
  rw [scanSide] at hs
  split at hs
  · rename_i heq
    cases hs
    simp [heq]
  · rename_i price heq
    split at hs
    · rename_i hz
      cases hs
      subst hz
      simp [heq, calculate_ev_zero]
    · rename_i hz
      split at hs
      · exact absurd hs (by simp)
      · rename_i ev hev
        cases hs
        constructor
        · intro he
          refine ⟨price, ev, heq, hev, ?_, ?_⟩ <;> by_cases h0 : 0 < ev
          · exact h0
          · rw [if_neg h0] at he
            cases he
          · rw [if_pos h0] at he
            simpa using he
          · rw [if_neg h0] at he
            cases he
        · rintro ⟨price', ev', hp', hev', h0', rfl⟩
          rw [heq] at hp'
          cases hp'
          rw [hev] at hev'
          cases hev'
          rw [if_pos h0']
          exact List.mem_singleton.mpr rfl

/-- `scanBooks` never raises. -/
theorem scanBooks_isSome (tap thp : ℚ) (a h : String) (bs : List Bookmaker) :
    ∃ l, scanBooks tap thp a h bs = some l := by
  induction bs with
  | nil => exact ⟨[], rfl⟩
  | cons b t ih =>
    obtain ⟨rest, hrest⟩ := ih
    rw [scanBooks]
    split
    · exact ⟨rest, hrest⟩
    · obtain ⟨la, hla⟩ := scanSide_isSome tap a b
      obtain ⟨lh, hlh⟩ := scanSide_isSome thp h b
      rw [hla, hlh, hrest]
      exact ⟨la ++ lh ++ rest, rfl⟩

/-- Membership in a successful `scanBooks` result, characterized: an entry
comes from some book of the game that is not on the sharp priority list,
via its away-side or home-side check. -/
theorem mem_scanBooks (tap thp : ℚ) (a h : String) (bs : List Bookmaker)
    (l : List EVEntry) (hs : scanBooks tap thp a h bs = some l) (e : EVEntry) :
    e ∈ l ↔ ∃ b ∈ bs, SHARP_BOOK_PRIORITY.contains b.title = false ∧
      ((∃ la, scanSide tap a b = some la ∧ e ∈ la) ∨
       (∃ lh, scanSide thp h b = some lh ∧ e ∈ lh)) := by
  induction bs generalizing l with
  | nil =>
    cases hs
    simp
  | cons b t ih =>
    rw [scanBooks] at hs
    split at hs
    · rename_i hskip
      rw [ih l hs]
      constructor
      · rintro ⟨b', hb', hsk, hside⟩
        exact ⟨b', List.mem_cons_of_mem b hb', hsk, hside⟩
      · rintro ⟨b', hb', hsk, hside⟩
        rcases List.mem_cons.mp hb' with rfl | hmem
        · rw [hskip] at hsk
          cases hsk
        · exact ⟨b', hmem, hsk, hside⟩
    · rename_i hskip
      obtain ⟨la, hla⟩ := scanSide_isSome tap a b
      obtain ⟨lh, hlh⟩ := scanSide_isSome thp h b
      obtain ⟨rest, hrest⟩ := scanBooks_isSome tap thp a h t
      rw [hla, hlh, hrest] at hs
      cases hs
      rw [List.append_assoc, List.mem_append, List.mem_append, ih rest hrest]
      constructor
      · rintro (he | he | ⟨b', hb', hsk, hside⟩)
        · exact ⟨b, List.mem_cons_self b t, Bool.not_eq_true _ ▸ by simpa using hskip,
            Or.inl ⟨la, hla, he⟩⟩
        · exact ⟨b, List.mem_cons_self b t, by simpa using hskip, Or.inr ⟨lh, hlh, he⟩⟩
        · exact ⟨b', List.mem_cons_of_mem b hb', hsk, hside⟩
      · rintro ⟨b', hb', hsk, hside⟩
        rcases List.mem_cons.mp hb' with rfl | hmem
        · rcases hside with ⟨la', hla', he⟩ | ⟨lh', hlh', he⟩
          · rw [hla] at hla'
            cases hla'
            exact Or.inl he
          · rw [hlh] at hlh'
            cases hlh'
            exact Or.inr (Or.inl he)
        · exact Or.inr (Or.inr ⟨b', hmem, hsk, hside⟩)

/-- `scanGame` never raises: no uncaught exception escapes the per-game EV
scan. -/
theorem scanGame_isSome (g : Game) : ∃ l, scanGame g = some l := by
  rw [scanGame]
  split
  · exact ⟨[], rfl⟩
  · rename_i pair
    split
    · rename_i sa sh hsa hsh
      obtain ⟨⟨tap, thp⟩, hnv⟩ := no_vig_isSome sa sh
      rw [hnv]
      exact scanBooks_isSome tap thp _ _ _
    · exact ⟨[], rfl⟩

/-- `evFinder` never raises. -/
theorem evFinder_isSome (gs : List Game) : ∃ l, evFinder gs = some l := by
  induction gs with
  | nil => exact ⟨[], rfl⟩
  | cons g t ih =>
    obtain ⟨l, hl⟩ := scanGame_isSome g
    obtain ⟨rest, hrest⟩ := ih
    rw [evFinder, hl, hrest]
    exact ⟨l ++ rest, rfl⟩

/-! ### C8 -/

/-- The name component of the reference selection is the first
priority-list name carried by some bookmaker of the game. -/
theorem selectReference_name_eq (bs : List Bookmaker) :
    (selectReference bs).map Prod.fst =
      SHARP_BOOK_PRIORITY.find? (fun n => bs.any (fun b => b.title == n)) := by
  rw [selectReference]
  generalize SHARP_BOOK_PRIORITY = names
  induction names with
  | nil => rfl
  | cons n t ih =>
    cases hf : bs.find? (fun b => b.title == n) with
    | none =>
      have hany : bs.any (fun b => b.title == n) = false :=
        List.any_eq_false.mpr (fun x hx => List.find?_eq_none.mp hf x hx)
      simp [List.findSome?_cons, List.find?_cons, hf, hany, ih]
    | some b =>
      have hpb := List.find?_some hf
      have hany : bs.any (fun b' => b'.title == n) = true :=
        List.any_eq_true.mpr ⟨b, List.mem_of_find?_eq_some hf, hpb⟩
      simp [List.findSome?_cons, List.find?_cons, hf, hany]

/-- The reference selection is absent exactly when no priority book covers
the game. -/
theorem selectReference_none_iff (bs : List Bookmaker) :
    selectReference bs = none ↔ ∀ n ∈ SHARP_BOOK_PRIORITY, ∀ b ∈ bs, b.title ≠ n := by
  rw [selectReference, List.findSome?_eq_none_iff]
  constructor
  · intro h n hn b hb heq
    have h1 := h n hn
    rw [Option.map_eq_none'] at h1
    exact List.find?_eq_none.mp h1 b hb (by simp [heq])
  · intro h n hn
    rw [Option.map_eq_none', List.find?_eq_none]
    intro b hb
    simp [h n hn b hb]

/-- A successful reference selection returns a priority-list name and the
first bookmaker of the game carrying it. -/
theorem selectReference_mem (bs : List Bookmaker) (n : String) (b : Bookmaker)
    (h : selectReference bs = some (n, b)) :
    n ∈ SHARP_BOOK_PRIORITY ∧ b ∈ bs ∧ b.title = n := by
  rw [selectReference] at h
  obtain ⟨nm, hnm, hf⟩ := List.exists_of_findSome?_eq_some h
  obtain ⟨b', hb', hpair⟩ := Option.map_eq_some'.mp hf
  cases hpair
  refine ⟨hnm, List.mem_of_find?_eq_some hb', ?_⟩
  simpa using List.find?_some hb'

/-- C8: reference selection scans the fixed priority list in order and
returns the first listed name present among the game's bookmakers
(positional tie-break); it is absent exactly when no priority book covers
the game, and in that case the game contributes nothing to the EV scan
(`scanGame` returns the empty list, no error) while the remaining games
are still processed (`evFinder` of the surrounding list is unchanged). -/
theorem selectReference_spec (bs : List Bookmaker) :
    ((selectReference bs).map Prod.fst =
        SHARP_BOOK_PRIORITY.find? (fun n => bs.any (fun b => b.title == n))) ∧
      (selectReference bs = none ↔
        ∀ n ∈ SHARP_BOOK_PRIORITY, ∀ b ∈ bs, b.title ≠ n) ∧
      (∀ g : Game, g.bookmakers = bs → selectReference bs = none →
        scanGame g = some [] ∧
          ∀ pre post, evFinder (pre ++ g :: post) = evFinder (pre ++ post)) := by
  refine ⟨selectReference_name_eq bs, selectReference_none_iff bs, ?_⟩
  intro g hgbs hnone
  subst hgbs
  have hscan : scanGame g = some [] := by
    rw [scanGame, hnone]
  refine ⟨hscan, ?_⟩
  intro pre post
  induction pre with
  | nil =>
    rw [List.nil_append, List.nil_append, evFinder, hscan]
    cases hp : evFinder post with
    | none => rfl
    | some rest => simp
  | cons a pre ih =>
    rw [List.cons_append, List.cons_append, evFinder, evFinder, ih]

/-- Witness for C8 on a game covered by no priority-list book. -/
theorem selectReference_spec_witness :
    ((selectReference exNoRefGame.bookmakers).map Prod.fst =
        SHARP_BOOK_PRIORITY.find?
          (fun n => exNoRefGame.bookmakers.any (fun b => b.title == n))) ∧
      (selectReference exNoRefGame.bookmakers = none ↔
        ∀ n ∈ SHARP_BOOK_PRIORITY, ∀ b ∈ exNoRefGame.bookmakers, b.title ≠ n) ∧
      (∀ g : Game, g.bookmakers = exNoRefGame.bookmakers →
        selectReference exNoRefGame.bookmakers = none →
        scanGame g = some [] ∧
          ∀ pre post, evFinder (pre ++ g :: post) = evFinder (pre ++ post)) :=
  selectReference_spec exNoRefGame.bookmakers

/-! ### C10 -/

/-- C10: in the EV scan, a side whose matched price is absent (`None`) or
falsy (`0`) is skipped silently — `scanSide` returns the empty entry list
and no error; `calculate_ev` at price 0 would be the `ZeroDivisionError`,
but `scanSide`, `scanGame` (and hence the whole scan) always return a
value, so that branch is unreachable from the pipeline. -/
theorem scan_skips_falsy (tp : ℚ) (team : String) (b : Bookmaker)
    (h : matchPrice team (firstOutcomes b) = none ∨
      matchPrice team (firstOutcomes b) = some 0) :
    scanSide tp team b = some [] ∧
      (∀ p, calculate_ev p 0 = none) ∧
      (∀ (tp' : ℚ) (team' : String) (b' : Bookmaker), ∃ l, scanSide tp' team' b' = some l) ∧
      (∀ g : Game, ∃ l, scanGame g = some l) := by
  refine ⟨?_, calculate_ev_zero, scanSide_isSome, scanGame_isSome⟩
  rcases h with hn | hz
  · rw [scanSide, hn]
  · rw [scanSide, hz]
    simp

/-! ### C3 -/

/-- Every whitelisted title on the sharp priority list is "Pinnacle". -/
theorem allowed_in_priority_eq :
    ∀ s ∈ ALLOWED_BOOKS_RAW, s ∈ SHARP_BOOK_PRIORITY → s = "Pinnacle" := by
  decide

/-- A whitelisted title other than "Pinnacle" is never skipped by the
priority-list test. -/
theorem allowed_not_pinnacle_contains :
    ∀ s ∈ ALLOWED_BOOKS_RAW, s ≠ "Pinnacle" → SHARP_BOOK_PRIORITY.contains s = false := by
  decide

/-- Membership in one side's scan result, phrased on the entry's fields. -/
theorem scanSide_mem_iff (tp : ℚ) (team : String) (b : Bookmaker) (e : EVEntry) :
    (∃ la, scanSide tp team b = some la ∧ e ∈ la) ↔
      (e.team = team ∧ e.book = b.title ∧
        matchPrice team (firstOutcomes b) = some e.price ∧
        calculate_ev tp e.price = some e.ev ∧ 0 < e.ev) := by
  obtain ⟨l, hl⟩ := scanSide_isSome tp team b
  constructor
  · rintro ⟨la, hla, he⟩
    obtain ⟨price, ev, h1, h2, h3, rfl⟩ := (mem_scanSide tp team b la hla e).mp he
    exact ⟨rfl, rfl, h1, h2, h3⟩
  · rintro ⟨ht, hb, hm, hev, hpos⟩
    refine ⟨l, hl, (mem_scanSide tp team b l hl e).mpr
      ⟨e.price, e.ev, hm, hev, hpos, ?_⟩⟩
    cases e
    dsimp only at ht hb ⊢
    rw [ht, hb]

/-- C3: for a game whose bookmakers are all whitelisted (as `get_market_data`
guarantees) and which has a reference book with both sides matched, the EV
scan's output contains an entry exactly for those (team, book, price, ev)
with the book a non-reference book of the game whose matched price for that
side has EV, against the reference's no-vig probability, strictly greater
than 0 — in particular every non-reference book of the game is considered. -/
theorem ev_entry_iff (g : Game)
    (hallow : ∀ b ∈ g.bookmakers, b.title ∈ ALLOWED_BOOKS_RAW)
    (refName : String) (refBook : Bookmaker)
    (href : selectReference g.bookmakers = some (refName, refBook))
    (sa sh tap thp : ℚ)
    (hsa : matchPrice g.away_team (firstOutcomes refBook) = some sa)
    (hsh : matchPrice g.home_team (firstOutcomes refBook) = some sh)
    (hnv : calculate_no_vig_prob sa sh = some (tap, thp))
    (entries : List EVEntry) (hscan : scanGame g = some entries) (e : EVEntry) :
    e ∈ entries ↔
      ∃ b ∈ g.bookmakers, b.title = e.book ∧ e.book ≠ refName ∧
        ((e.team = g.away_team ∧
            matchPrice g.away_team (firstOutcomes b) = some e.price ∧
            calculate_ev tap e.price = some e.ev ∧ 0 < e.ev) ∨
         (e.team = g.home_team ∧
            matchPrice g.home_team (firstOutcomes b) = some e.price ∧
            calculate_ev thp e.price = some e.ev ∧ 0 < e.ev)) := by
  obtain ⟨hrefPrio, hrefMem, hrefTitle⟩ :=
    selectReference_mem g.bookmakers refName refBook href
  have hrefAllowed : refName ∈ ALLOWED_BOOKS_RAW := hrefTitle ▸ hallow refBook hrefMem
  have hpin : refName = "Pinnacle" := allowed_in_priority_eq refName hrefAllowed hrefPrio
  simp only [scanGame, href, hsa, hsh, hnv] at hscan
  rw [mem_scanBooks tap thp g.away_team g.home_team g.bookmakers entries hscan e]
  constructor
  · rintro ⟨b, hb, hskip, hside⟩
    have hbne : b.title ≠ "Pinnacle" := by
      intro heq
      rw [heq] at hskip
      exact absurd hskip (by decide)
    rcases hside with hA | hH
    · obtain ⟨ht, hbk, hm, hev, hpos⟩ := (scanSide_mem_iff tap g.away_team b e).mp hA
      refine ⟨b, hb, hbk.symm, ?_, Or.inl ⟨ht, hm, hev, hpos⟩⟩
      rw [hpin, hbk]
      exact hbne
    · obtain ⟨ht, hbk, hm, hev, hpos⟩ := (scanSide_mem_iff thp g.home_team b e).mp hH
      refine ⟨b, hb, hbk.symm, ?_, Or.inr ⟨ht, hm, hev, hpos⟩⟩
      rw [hpin, hbk]
      exact hbne
  · rintro ⟨b, hb, hbk, hne, hside⟩
    have hskip : SHARP_BOOK_PRIORITY.contains b.title = false := by
      apply allowed_not_pinnacle_contains b.title (hallow b hb)
      rw [hbk, ← hpin]
      exact hne
    refine ⟨b, hb, hskip, ?_⟩
    rcases hside with ⟨ht, hm, hev, hpos⟩ | ⟨ht, hm, hev, hpos⟩
    · exact Or.inl ((scanSide_mem_iff tap g.away_team b e).mpr
        ⟨ht, hbk.symm, hm, hev, hpos⟩)
    · exact Or.inr ((scanSide_mem_iff thp g.home_team b e).mpr
        ⟨ht, hbk.symm, hm, hev, hpos⟩)

/-- Computation of the scan on the concrete fixture game: Pinnacle's no-vig
line is (1/2, 1/2), FanDuel's +120 on the away side has EV +10% > 0 and is
emitted; FanDuel quotes no home side. -/
theorem exEvGame_scan :
    scanGame exEvGame = some [⟨"New York Jets", "FanDuel", 120, 1 / 10⟩] := by
  have hev : calculate_ev (1 / 2) 120 = some (1 / 10) := by
    rw [calculate_ev_eq_of_ne (1 / 2) 120 (by norm_num)]
    norm_num [evSpec, winningsSpec]
  have hside : scanSide (1 / 2) "New York Jets" exFanDuelBook =
      some [⟨"New York Jets", "FanDuel", 120, 1 / 10⟩] := by
    have step : scanSide (1 / 2) "New York Jets" exFanDuelBook =
        (match calculate_ev (1 / 2) 120 with
         | none => none
         | some ev => some (if 0 < ev then [⟨"New York Jets", "FanDuel", 120, ev⟩] else [])) :=
      rfl
    rw [step, hev]
    show some (if (0 : ℚ) < 1 / 10
        then [(⟨"New York Jets", "FanDuel", 120, 1 / 10⟩ : EVEntry)] else []) =
      some [(⟨"New York Jets", "FanDuel", 120, 1 / 10⟩ : EVEntry)]
    rw [if_pos (show (0 : ℚ) < 1 / 10 by norm_num)]
  have step0 : scanGame exEvGame =
      (match calculate_no_vig_prob (-110) (-110) with
       | none => none
       | some (tap, thp) =>
         scanBooks tap thp "New York Jets" "Buffalo Bills" exEvGame.bookmakers) := rfl
  rw [step0, no_vig_110]
  show scanBooks (1 / 2) (1 / 2) "New York Jets" "Buffalo Bills" exEvGame.bookmakers =
    some [(⟨"New York Jets", "FanDuel", 120, 1 / 10⟩ : EVEntry)]
  have step1 : scanBooks (1 / 2) (1 / 2) "New York Jets" "Buffalo Bills" exEvGame.bookmakers =
      (match scanSide (1 / 2) "New York Jets" exFanDuelBook,
             scanSide (1 / 2) "Buffalo Bills" exFanDuelBook,
             scanBooks (1 / 2) (1 / 2) "New York Jets" "Buffalo Bills" [] with
       | some la, some lh, some rest => some (la ++ lh ++ rest)
       | _, _, _ => none) := rfl
  rw [step1, hside]
  rfl

/-- Witness for C3 on the concrete fixture game. -/
theorem ev_entry_iff_witness :
    (⟨"New York Jets", "FanDuel", 120, 1 / 10⟩ : EVEntry) ∈
        [(⟨"New York Jets", "FanDuel", 120, 1 / 10⟩ : EVEntry)] ↔
      ∃ b ∈ exEvGame.bookmakers, b.title = "FanDuel" ∧ ("FanDuel" : String) ≠ "Pinnacle" ∧
        ((("New York Jets" : String) = "New York Jets" ∧
            matchPrice "New York Jets" (firstOutcomes b) = some 120 ∧
            calculate_ev (1 / 2) 120 = some (1 / 10) ∧ (0 : ℚ) < 1 / 10) ∨
         (("New York Jets" : String) = "Buffalo Bills" ∧
            matchPrice "Buffalo Bills" (firstOutcomes b) = some 120 ∧
            calculate_ev (1 / 2) 120 = some (1 / 10) ∧ (0 : ℚ) < 1 / 10)) :=
  ev_entry_iff exEvGame (by decide) "Pinnacle" exPinnacleBook (by decide) (-110) (-110)
    (1 / 2) (1 / 2) (by decide) (by decide) no_vig_110 _ exEvGame_scan
    ⟨"New York Jets", "FanDuel", 120, 1 / 10⟩

/-- Witness for C10 on a concrete zero-price book. -/
theorem scan_skips_falsy_witness :
    scanSide (1 / 2) "New York Jets" exZeroPriceBook = some [] ∧
      (∀ p, calculate_ev p 0 = none) ∧
      (∀ (tp' : ℚ) (team' : String) (b' : Bookmaker), ∃ l, scanSide tp' team' b' = some l) ∧
      (∀ g : Game, ∃ l, scanGame g = some l) :=
  scan_skips_falsy (1 / 2) "New York Jets" exZeroPriceBook (Or.inr (by decide))

end Dashboard
